import Mathlib

/-!
A shallow embedding of `src/app.py` (a Flask front-end over the yt-dlp
download engine).  Python dictionaries holding job state become a `Job`
structure, the in-memory `PROGRESS` table becomes an association list,
filesystem and environment queries become explicit parameters, and the
floating-point `percent` arithmetic is modelled over `ℚ`.

Python truthiness (`x or y`, `if total:`) is embedded by explicit helper
functions: `None`, `0` and `""` are falsy.
-/

namespace App

/-- Job status values actually assigned by `app.py`
(`"queued"`, `"starting"`, `"downloading"`, `"postprocessing"`,
`"finalizing"`, `"finished"`, `"error"`). -/
inductive Status where
  | queued | starting | downloading | postprocessing | finalizing | finished | error
deriving DecidableEq, Repr

/-- Status field of a yt-dlp progress-hook event dict: the hook in
`build_opts` only distinguishes `"downloading"`, `"finished"` and
anything else. -/
inductive EStatus where
  | downloading | finished | other
deriving DecidableEq, Repr

/-- A yt-dlp progress-hook event dict `d`, restricted to the keys the hook
reads.  `ufilename` stands for the `"_filename"` key. -/
structure Event where
  status : EStatus
  total_bytes : Option Nat := none
  total_bytes_estimate : Option Nat := none
  downloaded_bytes : Option Nat := none
  speed : Option ℚ := none
  eta : Option ℚ := none
  ufilename : Option String := none
  filename : Option String := none
deriving DecidableEq, Repr

/-- One record of the `PROGRESS` table (see `make_job` in `app.py`). -/
structure Job where
  status : Status
  percent : ℚ
  speed : Option ℚ
  eta : Option ℚ
  msg : String
  tmpdir : Option String
  final_path : Option String
  filename : Option String
  error : Option String
deriving DecidableEq, Repr

/-- Python `a or b` for an optional integer `a`: `None` and `0` are falsy. -/
def pyOrNat (a : Option Nat) (b : Option Nat) : Option Nat :=
  match a with
  | some n => if n = 0 then b else some n
  | none => b

/-- Python `a or b` for an optional string `a`: `None` and `""` are falsy. -/
def pyOrStr (a : Option String) (b : String) : String :=
  match a with
  | some s => if s = "" then b else s
  | none => b

/-- Python `if total:` on the value obtained from
`d.get("total_bytes") or d.get("total_bytes_estimate")`. -/
def truthyNat (a : Option Nat) : Bool :=
  match a with
  | some n => n ≠ 0
  | none => false

/-- Python `round(x, 2)` modelled over `ℚ` (round to two decimal places). -/
def round2 (q : ℚ) : ℚ := (round (q * 100) : ℤ) / 100

/-- Embedding of `os.path.basename`: the part of the path after the last `/`. -/
def basename (s : String) : String :=
  String.mk ((s.data.reverse.takeWhile (fun c => c != '/')).reverse)

/-- Python `str.strip()`: drop leading and trailing whitespace. -/
def pyStrip (s : String) : String :=
  String.mk (((s.data.dropWhile Char.isWhitespace).reverse.dropWhile Char.isWhitespace).reverse)

/-- The progress hook defined inside `build_opts` (`app.py` lines 96-115),
as a transformer of the job record it closes over.  `ff` and `mode` are
the values of `have_ffmpeg()` and the requested mode captured by the
closure.  The `PROGRESS.get(job_id)` guard (hook is a no-op once the job
record is gone) lives at the registry level and is not part of this
per-record step. -/
def hook (ff : Bool) (mode : String) (job : Job) (d : Event) : Job :=
  match d.status with
  | .downloading =>
    let total := pyOrNat d.total_bytes d.total_bytes_estimate
    let downloaded := d.downloaded_bytes.getD 0
    let percent : ℚ :=
      if truthyNat total then ((downloaded : ℚ) / ((total.getD 0 : Nat) : ℚ)) * 100 else 0
    { job with
        status := .downloading
        percent := round2 percent
        speed := d.speed
        eta := d.eta
        msg := pyOrStr d.ufilename "Downloading..."
        filename := some (basename (pyOrStr d.filename (pyOrStr job.filename ""))) }
  | .finished =>
    { job with
        status := if ff && (mode == "best" || mode == "audio")
                  then .postprocessing else .finalizing
        msg := "Merging / finalizing..."
        filename := some (basename (pyOrStr d.filename (pyOrStr job.filename ""))) }
  | .other => job

/-- The fresh record inserted by `make_job`. -/
def make_job_record : Job :=
  { status := .queued
    percent := 0
    speed := none
    eta := none
    msg := "Waiting..."
    tmpdir := none
    final_path := none
    filename := none
    error := none }

/-- The process environment and filesystem state that `app.py` consults:
`FFMPEG_LOCATION`, the (post-initialisation) `COOKIES_FILE` and
`COOKIES_FROM_BROWSER` values, and the filesystem / `PATH` predicates
used by `os.path.isdir`, `os.path.exists` and `shutil.which`. -/
structure Env where
  ffmpeg_location : Option String := none
  cookies_file : Option String := none
  cookies_from_browser : Option String := none
  isDir : String → Bool := fun _ => false
  pathExists : String → Bool := fun _ => false
  which : String → Bool := fun _ => false

/-- Embedding of `os.path.join` for the two-argument uses in `app.py` (POSIX). -/
def pathJoin (d name : String) : String :=
  if d.endsWith "/" then d ++ name else d ++ "/" ++ name

/-- Embedding of `have_ffmpeg` (`app.py` lines 52-65): `True` iff ffmpeg/ffprobe are
available either via the `FFMPEG_LOCATION` environment variable or via
`PATH` lookup.  An empty `FFMPEG_LOCATION` is falsy in Python, so it
falls through to the `PATH` lookup. -/
def have_ffmpeg (env : Env) : Bool :=
  match env.ffmpeg_location with
  | some loc =>
    if loc ≠ "" then
      if env.isDir loc then
        env.pathExists (pathJoin loc "ffmpeg") && env.pathExists (pathJoin loc "ffprobe")
      else
        env.pathExists loc
    else env.which "ffmpeg" && env.which "ffprobe"
  | none => env.which "ffmpeg" && env.which "ffprobe"

/-- One entry of the `postprocessors` list of a yt-dlp options dict. -/
structure Postprocessor where
  key : String
  preferredcodec : Option String := none
deriving DecidableEq, Repr

/-- The yt-dlp options dict built by `build_opts`, restricted to the keys
`app.py` writes.  The `progress_hooks` entry is the closure modelled
separately by `hook`. -/
structure YdlOpts where
  outtmpl : String
  quiet : Bool
  noprogress : Bool
  format : Option String := none
  merge_output_format : Option String := none
  postprocessors : List Postprocessor := []
  ffmpeg_location : Option String := none
  cookiefile : Option String := none
  cookiesfrombrowser : Option (String × Option String) := none
deriving DecidableEq, Repr

/-- The `COOKIES_FROM_BROWSER` parsing inside `build_opts`
(`<browser>[:<profile>]`, blanks stripped, empty parts become `None`). -/
def parseCookiesFromBrowser (raw : String) : Option (String × Option String) :=
  let raw := pyStrip raw
  let (browser, profile) :=
    if (raw.splitOn ":").length > 1 then
      match raw.splitOn ":" with
      | b :: rest => (b, some (String.intercalate ":" rest))
      | [] => (raw, none)
    else (raw, none)
  let browser := if pyStrip browser = "" then none else some (pyStrip browser)
  let profile := match profile with
    | some p => if pyStrip p = "" then none else some (pyStrip p)
    | none => none
  match browser with
  | some b => some (b, profile)
  | none => none

/-- Embedding of `build_opts` (`app.py` lines 84-185) without the hook closure: the
options dict handed to `YoutubeDL`, as a function of the environment,
the job's temporary directory and the requested mode. -/
def build_opts (env : Env) (tmpdir : String) (mode : String) : YdlOpts :=
  let ff := have_ffmpeg env
  let cookiefile : Option String := match env.cookies_file with
    | some cf => if cf ≠ "" && env.pathExists cf then some cf else none
    | none => none
  let base : YdlOpts :=
    { outtmpl := pathJoin tmpdir "%(title)s.%(ext)s"
      quiet := true
      noprogress := true
      ffmpeg_location := match env.ffmpeg_location with
        | some loc => if loc ≠ "" then some loc else none
        | none => none
      cookiefile := cookiefile
      cookiesfrombrowser :=
        if cookiefile.isNone then
          match env.cookies_from_browser with
          | some raw => if raw ≠ "" then parseCookiesFromBrowser raw else none
          | none => none
        else none }
  if mode = "audio" then
    if ff then
      { base with
          format := some "ba/best"
          postprocessors := [{ key := "FFmpegExtractAudio", preferredcodec := some "mp3" }]
          merge_output_format := some "mp3" }
    else
      { base with format := some "ba/best" }
  else if mode = "progressive" then
    { base with format := some "b[ext=mp4]/best", merge_output_format := some "mp4" }
  else
    if ff then
      { base with format := some "bv*+ba/best", merge_output_format := some "mp4" }
    else
      { base with format := some "b[ext=mp4]/best", merge_output_format := some "mp4" }

/-- A filesystem snapshot: the existing regular files, each with its
modification time (`os.path.getmtime`). -/
abbrev Fs := List (String × Nat)

/-- Embedding of `os.path.exists` against an `Fs` snapshot. -/
def fsExists (fs : Fs) (p : String) : Bool :=
  (fs.map Prod.fst).contains p

/-- Embedding of `os.listdir(tmpdir)` joined back with the directory (`app.py` line
192 joins each entry with `tmpdir`): the files lying under `tmpdir`. -/
def listdirFull (fs : Fs) (tmpdir : String) : List (String × Nat) :=
  fs.filter (fun pr => (tmpdir ++ "/").isPrefixOf pr.1)

/-- Python `max(files, key=os.path.getmtime)`: first maximum wins. -/
def maxByMtime (hd : String × Nat) (tl : List (String × Nat)) : String :=
  (tl.foldl (fun acc x => if x.2 > acc.2 then x else acc) hd).1

/-- Embedding of `resolve_final_path` (`app.py` lines 188-195): prefer the engine's
prepared filename; if it does not exist on disk, fall back to the
most-recently-modified file in `tmpdir`; if the directory is empty, the
(nonexistent) prepared filename is returned unchanged. -/
def resolve_final_path (fs : Fs) (tmpdir : String) (prepared : String) : String :=
  if fsExists fs prepared then prepared
  else
    match listdirFull fs tmpdir with
    | [] => prepared
    | f :: rest => maxByMtime f rest

/-- Outcome of the engine call `ydl.extract_info(url, download=True)`:
success with the prepared filename `prepare_filename` would report, a
`DownloadError`, or any other exception. -/
inductive Outcome where
  | success (prepared : String)
  | downloadError (msg : String)
  | unexpectedError (msg : String)
deriving DecidableEq, Repr

/-- Embedding of `download_worker` (`app.py` lines 200-225) acting on the job record:
the record after the worker ran, as a function of the hook events the
engine emitted before returning/raising and of the engine outcome.
`fs` is the filesystem at the time `resolve_final_path` runs. -/
def download_worker (ff : Bool) (mode : String) (tmpdir : String)
    (events : List Event) (outcome : Outcome) (fs : Fs) (job0 : Job) : Job :=
  let j1 := { job0 with tmpdir := some tmpdir, status := .starting, msg := "Starting..." }
  let j2 := events.foldl (hook ff mode) j1
  match outcome with
  | .success prepared =>
    let fp := resolve_final_path fs tmpdir prepared
    { j2 with
        final_path := some fp
        filename := some (basename fp)
        status := .finished
        percent := 100
        msg := "Ready to download" }
  | .downloadError e =>
    { j2 with status := .error, error := some e, msg := "Download error" }
  | .unexpectedError e =>
    { j2 with status := .error, error := some e, msg := "Unexpected error" }

/-- The `PROGRESS` table: job identifier to job record. -/
abbrev Registry := List (String × Job)

/-- Embedding of `PROGRESS.get(job_id)`. -/
def regGet (r : Registry) (k : String) : Option Job :=
  (r.find? (fun pr => pr.1 == k)).map Prod.snd

/-- Embedding of `PROGRESS[job_id] = record`. -/
def regSet (r : Registry) (k : String) (j : Job) : Registry :=
  (k, j) :: r.filter (fun pr => pr.1 != k)

/-- Embedding of `PROGRESS.pop(job_id, None)` (only the resulting table). -/
def regPop (r : Registry) (k : String) : Registry :=
  r.filter (fun pr => pr.1 != k)

/-- The request body of `POST /start`, restricted to the keys read. -/
structure ReqData where
  url : Option String := none
  mode : Option String := none
deriving DecidableEq, Repr

/-- The JSON + HTTP-status response of the `/start` route. -/
structure StartResponse where
  ok : Bool
  error : Option String := none
  job_id : Option String := none
  code : Nat
deriving DecidableEq, Repr

/-- Embedding of `start` (`app.py` lines 250-261): validates the URL, creates the job
record and spawns the worker thread.  `freshId` stands for the
`uuid.uuid4().hex[:12]` value `make_job` would draw.  The returned
`Bool` records whether a worker thread was started. -/
def start (freshId : String) (reg : Registry) (data : ReqData) :
    StartResponse × Registry × Bool :=
  let url := pyStrip (pyOrStr data.url "")
  let _mode := pyStrip (pyOrStr data.mode "best")
  if url = "" then
    ({ ok := false, error := some "No URL", code := 400 }, reg, false)
  else
    ({ ok := true, job_id := some freshId, code := 200 },
      regSet reg freshId make_job_record, true)

/-- Server state seen by the `/fetch` route: the `PROGRESS` table and the
filesystem. -/
structure ServerState where
  reg : Registry
  fs : Fs

/-- Embedding of `shutil.rmtree(tmpdir, ignore_errors=True)`: every file under the
directory disappears; `rmtree(None)` raises and is swallowed by the
surrounding `try`, leaving the filesystem unchanged. -/
def rmtree (fs : Fs) (tmpdir : Option String) : Fs :=
  match tmpdir with
  | some d => fs.filter (fun pr => !((d ++ "/").isPrefixOf pr.1))
  | none => fs

/-- Result of the `/fetch` route.  `sent` is a successful
`send_file(final_path, ...)` stream with its attachment name;
`sendError` is `send_file` raising because the file is absent (Flask
turns this into an internal-error response, not a 409). -/
inductive FetchResult where
  | notFound
  | conflict
  | sent (path : String) (name : String)
  | sendError (path : String)
deriving DecidableEq, Repr

/-- Embedding of `fetch` (`app.py` lines 281-302).  The readiness check is only
`status != "finished" or not final_path`; the existence of the file on
disk is not consulted.  The `cleanup` callback is registered with
`after_this_request` before `send_file` runs, so it executes during
response finalisation whether the stream succeeds or `send_file`
raises: the working directory is removed recursively and the record is
popped from the table. -/
def fetch (st : ServerState) (jobId : String) : FetchResult × ServerState :=
  match regGet st.reg jobId with
  | none => (.notFound, st)
  | some job =>
    if job.status ≠ Status.finished ∨ pyOrStr job.final_path "" = "" then
      (.conflict, st)
    else
      let fp := pyOrStr job.final_path ""
      let st' : ServerState :=
        { reg := regPop st.reg jobId, fs := rmtree st.fs job.tmpdir }
      if fsExists st.fs fp then
        (.sent fp (basename fp), st')
      else
        (.sendError fp, st')

/-- The statuses the hook writes while processing `events`, starting
from job record `j` (one entry per event; an event with another status
leaves the record, hence its status, unchanged). -/
def hookStatuses (ff : Bool) (mode : String) (j : Job) : List Event → List Status
  | [] => []
  | e :: es =>
    let j' := hook ff mode j e
    j'.status :: hookStatuses ff mode j' es

/-- The job record right after the worker's `starting` write (the
`tmpdir` field, which the hook never reads, is left at its default). -/
def startedJob : Job :=
  { make_job_record with status := Status.starting, msg := "Starting..." }

/-- The sequence of `status` values held by a job record over its
lifetime under `download_worker`: `queued` at creation, `starting`,
one value per processed hook event, then the terminal value the worker
writes (`finished` on success, `error` on either exception path). -/
def statusTrace (ff : Bool) (mode : String) (events : List Event)
    (outcome : Outcome) : List Status :=
  Status.queued :: Status.starting :: hookStatuses ff mode startedJob events ++
    [match outcome with
     | .success _ => Status.finished
     | .downloadError _ => Status.error
     | .unexpectedError _ => Status.error]

/-- The forward order of the lifecycle phases claimed by the spec
(`postprocessing` and `finalizing` are alternatives at the same depth). -/
def rank : Status → Nat
  | .queued => 0
  | .starting => 1
  | .downloading => 2
  | .postprocessing => 3
  | .finalizing => 3
  | .finished => 4
  | .error => 5

/-- Every adjacent pair of the list satisfies the boolean relation `R`. -/
def chainB (R : Status → Status → Bool) : List Status → Bool
  | a :: b :: l => R a b && chainB R (b :: l)
  | _ => true

/-- The spec's forward-only order on statuses. -/
def rankLe (a b : Status) : Bool := Nat.ble (rank a) (rank b)

/-- The step relation the code actually guarantees: forward-only, except
that a further `downloading` progress event may pull the status back
from `postprocessing`/`finalizing` (a later stream of the same job
starting to download); `finished` and `error` never have successors. -/
def stepOk (a b : Status) : Bool :=
  (Nat.ble (rank a) (rank b) && !(a == .finished) && !(a == .error)) ||
  (b == .downloading && (a == .postprocessing || a == .finalizing))

/-- Whether a `/fetch` outcome streamed the file successfully. -/
def FetchResult.isSent : FetchResult → Bool
  | .sent _ _ => true
  | _ => false

/-- Statuses a job can hold strictly between the worker's `starting`
write and its terminal write. -/
def Mid (s : Status) : Prop :=
  s = .starting ∨ s = .downloading ∨ s = .postprocessing ∨ s = .finalizing

/-- Example progress event: a `downloading` event whose size estimate
undershoots the bytes already transferred. -/
def evOver : Event :=
  { status := .downloading, total_bytes_estimate := some 1, downloaded_bytes := some 2 }

/-- Example progress event: a plain `downloading` event. -/
def evDl : Event := { status := .downloading }

/-- Example progress event: a per-file `finished` event. -/
def evFin : Event := { status := .finished }

/-- Example progress event: 1 of 4 bytes transferred. -/
def evQuarter : Event :=
  { status := .downloading, total_bytes := some 4, downloaded_bytes := some 1 }

/-- Example job record: finished, with a recorded final path. -/
def jobDoneA : Job :=
  { make_job_record with
      status := .finished, final_path := some "/tmp/yt_a/v.mp4", tmpdir := some "/tmp/yt_a" }

/-- Example server state: the finished job `"j"` whose `final_path` is
absent from the (empty) filesystem. -/
def stMissingA : ServerState := { reg := [("j", jobDoneA)], fs := [] }

/-- Example server state: the finished job `"j"` whose `final_path`
exists on disk. -/
def stReadyA : ServerState := { reg := [("j", jobDoneA)], fs := [("/tmp/yt_a/v.mp4", 5)] }

/-- Example job record: finished, final path recorded but never written. -/
def jobDoneC : Job :=
  { make_job_record with
      status := .finished, final_path := some "/tmp/yt_c/w.mp4", tmpdir := some "/tmp/yt_c" }

/-- Example server state for the fetch classification: job `"g"` finished
with its file absent from disk. -/
def stMissingC : ServerState := { reg := [("g", jobDoneC)], fs := [] }

/-- Example server state: empty registry and filesystem. -/
def stEmpty : ServerState := { reg := [], fs := [] }

/-- Example job record: still downloading. -/
def jobRunningB : Job :=
  { make_job_record with status := .downloading, tmpdir := some "/tmp/yt_b" }

/-- Example server state: job `"k"` not yet finished. -/
def stNotReadyB : ServerState := { reg := [("k", jobRunningB)], fs := [] }

/-- Example job record: finished with its file on disk, under `"m"`. -/
def jobDoneD : Job :=
  { make_job_record with
      status := .finished, final_path := some "/tmp/yt_d/x.mp4", tmpdir := some "/tmp/yt_d" }

/-- Example server state for the streamed-only-when-ready direction. -/
def stReadyD : ServerState := { reg := [("m", jobDoneD)], fs := [("/tmp/yt_d/x.mp4", 9)] }

/-- Example environment: nothing configured, nothing on `PATH`. -/
def envNoFF : Env := {}

/-- Rounding on `ℚ` is monotone. -/
theorem round_mono_rat {x y : ℚ} (h : x ≤ y) : round x ≤ round y := by
  rw [round_eq, round_eq]
  exact Int.floor_le_floor (by linarith)

/-- Rounding to two decimals fixes zero. -/
theorem round2_zero : round2 0 = 0 := by
  simp [round2]

/-- Rounding to two decimals preserves nonnegativity. -/
theorem round2_nonneg {q : ℚ} (h : 0 ≤ q) : 0 ≤ round2 q := by
  unfold round2
  have h1 : round (0 : ℚ) ≤ round (q * 100) := round_mono_rat (by positivity)
  rw [round_zero] at h1
  have h2 : (0 : ℚ) ≤ ((round (q * 100) : ℤ) : ℚ) := by exact_mod_cast h1
  positivity

/-- Rounding to two decimals does not push a value at most 100 above 100. -/
theorem round2_le_100 {q : ℚ} (h : q ≤ 100) : round2 q ≤ 100 := by
  unfold round2
  have h1 : round (q * 100) ≤ round ((10000 : ℚ)) := round_mono_rat (by linarith)
  have h2 : round ((10000 : ℚ)) = 10000 := by
    rw [round_eq]
    norm_num [Int.floor_eq_iff]
  rw [h2] at h1
  rw [div_le_iff₀ (by norm_num : (0:ℚ) < 100)]
  have h3 : ((round (q * 100) : ℤ) : ℚ) ≤ ((10000 : ℤ) : ℚ) := by exact_mod_cast h1
  calc ((round (q * 100) : ℤ) : ℚ) ≤ ((10000 : ℤ) : ℚ) := h3
    _ = 100 * 100 := by norm_num

/-- A truthy total forces the underlying value to be positive. -/
theorem truthyNat_pos {a : Option Nat} (h : truthyNat a = true) : 0 < a.getD 0 := by
  cases a with
  | none => simp [truthyNat] at h
  | some n =>
    simp [truthyNat] at h
    simpa [Option.getD] using Nat.pos_of_ne_zero h

/-- C2, counterexample: a `downloading` event whose
`total_bytes_estimate` (1 byte) undershoots `downloaded_bytes` (2
bytes) makes the hook record `percent = 200`, outside `[0,100]` — the
code computes `(downloaded/total)*100` without clamping. -/
theorem hook_percent_counterexample :
    (hook false "best" make_job_record evOver).percent = 200 ∧
    ¬((hook false "best" make_job_record evOver).percent ≤ 100) := by
  have h : (hook false "best" make_job_record evOver).percent = 200 := by
    simp [hook, evOver, pyOrNat, truthyNat, round2]
    norm_num [round_ofNat]
  refine ⟨h, ?_⟩
  rw [h]
  norm_num

/-- C2, amended: for every `downloading` event the hook records
`percent = round(100*downloaded/total, 2)` when the total
(`total_bytes`, else `total_bytes_estimate`) is known and nonzero, and
`percent = 0` (no division) when it is unknown; the value is always
nonnegative, and it lies in `[0,100]` provided the reported
`downloaded_bytes` does not exceed the total (yt-dlp size estimates may
undershoot, in which case percent exceeds 100). -/
theorem hook_percent_formula_bounds (ff : Bool) (mode : String) (job : Job) (e : Event)
    (hdl : e.status = EStatus.downloading) :
    (hook ff mode job e).percent =
      (if truthyNat (pyOrNat e.total_bytes e.total_bytes_estimate)
       then round2 (((e.downloaded_bytes.getD 0 : Nat) : ℚ) /
         (((pyOrNat e.total_bytes e.total_bytes_estimate).getD 0 : Nat) : ℚ) * 100)
       else 0) ∧
    0 ≤ (hook ff mode job e).percent ∧
    (e.downloaded_bytes.getD 0 ≤ (pyOrNat e.total_bytes e.total_bytes_estimate).getD 0 →
      (hook ff mode job e).percent ≤ 100) := by
  rcases e with ⟨st, tb, tbe, db, sp, et, uf, fn⟩
  simp only [Event.status] at hdl
  subst hdl
  simp only [hook]
  cases hc : truthyNat (pyOrNat tb tbe) with
  | false =>
    refine ⟨by simp [hc, round2_zero], by simp [hc, round2_zero], ?_⟩
    intro _
    simp [hc, round2_zero]
  | true =>
    have hpos : 0 < (pyOrNat tb tbe).getD 0 := truthyNat_pos hc
    have hposQ : (0 : ℚ) < (((pyOrNat tb tbe).getD 0 : Nat) : ℚ) := by exact_mod_cast hpos
    refine ⟨by simp [hc], ?_, ?_⟩
    · simp only [hc, if_true]
      exact round2_nonneg (by positivity)
    · intro hle
      simp only [hc, if_true]
      apply round2_le_100
      have hleQ : ((db.getD 0 : Nat) : ℚ) ≤ (((pyOrNat tb tbe).getD 0 : Nat) : ℚ) := by
        exact_mod_cast hle
      have hdiv : ((db.getD 0 : Nat) : ℚ) / (((pyOrNat tb tbe).getD 0 : Nat) : ℚ) ≤ 1 := by
        rw [div_le_one hposQ]
        exact hleQ
      nlinarith

/-- C2, witness: a 1-of-4-bytes event yields a percent between 0 and
100. -/
theorem hook_percent_formula_bounds_witness :
    0 ≤ (hook false "best" make_job_record evQuarter).percent ∧
    (hook false "best" make_job_record evQuarter).percent ≤ 100 :=
  ⟨(hook_percent_formula_bounds false "best" make_job_record evQuarter rfl).2.1,
   (hook_percent_formula_bounds false "best" make_job_record evQuarter rfl).2.2 (by decide)⟩

/-- C6: with mode `best` and ffmpeg unavailable, `build_opts` selects
the progressive single-file format `b[ext=mp4]/best`, never the
separate-stream `bv*+ba/best` selection that would require merging, and
installs no postprocessors. -/
theorem build_opts_best_no_ffmpeg_progressive (env : Env) (tmpdir : String)
    (h : have_ffmpeg env = false) :
    (build_opts env tmpdir "best").format = some "b[ext=mp4]/best" ∧
    (build_opts env tmpdir "best").format ≠ some "bv*+ba/best" ∧
    (build_opts env tmpdir "best").postprocessors = [] := by
  simp [build_opts, h]

/-- C6, witness: an environment with nothing configured and nothing on
`PATH` has no ffmpeg, and the `best` request falls back to the
progressive selection. -/
theorem build_opts_best_no_ffmpeg_progressive_witness :
    have_ffmpeg envNoFF = false ∧
    ((build_opts envNoFF "/tmp/yt_w" "best").format = some "b[ext=mp4]/best" ∧
     (build_opts envNoFF "/tmp/yt_w" "best").format ≠ some "bv*+ba/best" ∧
     (build_opts envNoFF "/tmp/yt_w" "best").postprocessors = []) :=
  ⟨by decide, build_opts_best_no_ffmpeg_progressive envNoFF "/tmp/yt_w" (by decide)⟩

/-- C7: with mode `audio`, `build_opts` requests the best audio stream
(`ba/best`) in both cases; when ffmpeg is available it adds the
`FFmpegExtractAudio` postprocessor targeting the lossy `mp3` container
(and `merge_output_format = mp3`), and when ffmpeg is unavailable it
adds no transcoding step at all. -/
theorem build_opts_audio_formats (env : Env) (tmpdir : String) :
    (build_opts env tmpdir "audio").format = some "ba/best" ∧
    (build_opts env tmpdir "audio").postprocessors =
      (if have_ffmpeg env
       then [{ key := "FFmpegExtractAudio", preferredcodec := some "mp3" }]
       else []) ∧
    (build_opts env tmpdir "audio").merge_output_format =
      (if have_ffmpeg env then some "mp3" else none) := by
  cases h : have_ffmpeg env with
  | false => simp [build_opts, h]
  | true => simp [build_opts, h]

/-- Looking up a key right after setting it returns the stored record. -/
theorem regGet_regSet (r : Registry) (k : String) (j : Job) :
    regGet (regSet r k j) k = some j := by
  simp [regGet, regSet, List.find?]

/-- Looking up a key right after popping it finds nothing. -/
theorem regGet_regPop (r : Registry) (k : String) : regGet (regPop r k) k = none := by
  have h : List.find? (fun pr => pr.1 == k) (List.filter (fun pr => pr.1 != k) r) = none := by
    rw [List.find?_eq_none]
    intro pr hpr
    have hne := (List.mem_filter.mp hpr).2
    simpa [bne] using hne
  simp [regGet, regPop, h]

/-- C5: whatever the events were, a `DownloadError` from the engine
leaves the job record with `status = error`, the stringified exception
in `error` and the distinguishing message `"Download error"`; any other
exception leaves `status = error` with the generic message
`"Unexpected error"`.  In both cases the record is still present in the
registry and queryable; the worker is a total function of its inputs,
so neither exception escapes it. -/
theorem download_worker_error_contained (ff : Bool) (mode tmpdir : String)
    (events : List Event) (fs : Fs) (job0 : Job) (reg : Registry) (jobId e : String) :
    ((download_worker ff mode tmpdir events (.downloadError e) fs job0).status = .error ∧
     (download_worker ff mode tmpdir events (.downloadError e) fs job0).error = some e ∧
     (download_worker ff mode tmpdir events (.downloadError e) fs job0).msg =
       "Download error" ∧
     regGet (regSet reg jobId (download_worker ff mode tmpdir events (.downloadError e) fs job0))
       jobId = some (download_worker ff mode tmpdir events (.downloadError e) fs job0)) ∧
    ((download_worker ff mode tmpdir events (.unexpectedError e) fs job0).status = .error ∧
     (download_worker ff mode tmpdir events (.unexpectedError e) fs job0).error = some e ∧
     (download_worker ff mode tmpdir events (.unexpectedError e) fs job0).msg =
       "Unexpected error" ∧
     regGet (regSet reg jobId (download_worker ff mode tmpdir events (.unexpectedError e) fs job0))
       jobId = some (download_worker ff mode tmpdir events (.unexpectedError e) fs job0)) := by
  refine ⟨⟨?_, ?_, ?_, regGet_regSet _ _ _⟩, ⟨?_, ?_, ?_, regGet_regSet _ _ _⟩⟩ <;>
    simp [download_worker]

/-- C8: a submission whose `url` field is missing or whitespace-only is
rejected synchronously with `{ok: false, error: "No URL"}` and HTTP
400; the registry is unchanged (no job record created) and no worker
thread is started. -/
theorem start_empty_url (freshId : String) (reg : Registry) (data : ReqData)
    (h : data.url = none ∨ ∃ s, data.url = some s ∧ pyStrip s = "") :
    start freshId reg data =
      ({ ok := false, error := some "No URL", code := 400 }, reg, false) := by
  have h0 : pyStrip "" = "" := rfl
  rcases h with h | ⟨s, hs, hstrip⟩
  · simp [start, h, pyOrStr, h0]
  · by_cases hse : s = ""
    · subst hse
      simp [start, hs, pyOrStr, h0]
    · simp [start, hs, pyOrStr, hse, hstrip]

/-- C8, witness: a whitespace-only URL is rejected and creates nothing. -/
theorem start_empty_url_witness :
    start "j1" ([] : Registry) { url := some "   ", mode := none } =
      ({ ok := false, error := some "No URL", code := 400 }, ([] : Registry), false) :=
  start_empty_url "j1" [] { url := some "   ", mode := none }
    (Or.inr ⟨"   ", rfl, by decide⟩)

/-- C9: the capability detector returns `true` exactly when an
explicitly configured (nonempty) `FFMPEG_LOCATION` passes its check — a
directory must contain both `ffmpeg` and `ffprobe`, a direct path must
exist — or, with no (nonempty) location configured, both binaries are
found on `PATH`.  As embedded, it is a pure function of the
environment/filesystem snapshot, with no side effects. -/
theorem have_ffmpeg_characterization (env : Env) :
    have_ffmpeg env = true ↔
      ((∃ loc, env.ffmpeg_location = some loc ∧ loc ≠ "" ∧
          ((env.isDir loc = true ∧
              env.pathExists (pathJoin loc "ffmpeg") = true ∧
              env.pathExists (pathJoin loc "ffprobe") = true) ∨
            (env.isDir loc = false ∧ env.pathExists loc = true))) ∨
        ((env.ffmpeg_location = none ∨ env.ffmpeg_location = some "") ∧
          env.which "ffmpeg" = true ∧ env.which "ffprobe" = true)) := by
  rcases hloc : env.ffmpeg_location with _ | loc
  · simp [have_ffmpeg, hloc, Bool.and_eq_true]
  · by_cases hne : loc = ""
    · subst hne
      simp [have_ffmpeg, hloc, Bool.and_eq_true]
    · cases hdir : env.isDir loc with
      | false => simp [have_ffmpeg, hloc, hne, hdir, Bool.and_eq_true]
      | true => simp [have_ffmpeg, hloc, hne, hdir, Bool.and_eq_true]

/-- C10: when the engine's prepared filename does not exist on disk and
the working directory holds no files, `resolve_final_path` returns the
nonexistent prepared filename and the worker still records it as
`final_path` with `status = finished` and `percent = 100` — so a
`finished` job need not have its `final_path` present on disk. -/
theorem finished_job_final_path_missing (ff : Bool) (mode tmpdir prepared : String)
    (events : List Event) (fs : Fs) (job0 : Job)
    (h1 : fsExists fs prepared = false) (h2 : listdirFull fs tmpdir = []) :
    (download_worker ff mode tmpdir events (.success prepared) fs job0).status = .finished ∧
    (download_worker ff mode tmpdir events (.success prepared) fs job0).percent = 100 ∧
    (download_worker ff mode tmpdir events (.success prepared) fs job0).final_path =
      some prepared ∧
    fsExists fs prepared = false := by
  refine ⟨?_, ?_, ?_, h1⟩ <;> simp [download_worker, resolve_final_path, h1, h2]

/-- C10, witness: an empty filesystem realizes the scenario. -/
theorem finished_job_final_path_missing_witness :
    (download_worker false "best" "/tmp/yt_w" [] (.success "/tmp/yt_w/t.mp4")
      ([] : Fs) make_job_record).status = .finished ∧
    (download_worker false "best" "/tmp/yt_w" [] (.success "/tmp/yt_w/t.mp4")
      ([] : Fs) make_job_record).percent = 100 ∧
    (download_worker false "best" "/tmp/yt_w" [] (.success "/tmp/yt_w/t.mp4")
      ([] : Fs) make_job_record).final_path = some "/tmp/yt_w/t.mp4" ∧
    fsExists ([] : Fs) "/tmp/yt_w/t.mp4" = false :=
  finished_job_final_path_missing false "best" "/tmp/yt_w" "/tmp/yt_w/t.mp4" [] [] make_job_record
    (by decide) (by decide)

/-- C3, counterexample: a job with `status = finished` whose recorded
`final_path` is absent from disk (reachable per the `resolve_final_path`
fallback) makes the first fetch fail inside `send_file` instead of
succeeding — so not every finished job has a successful first fetch. -/
theorem fetch_finished_missing_file_counterexample :
    ((fetch stMissingA "j").1).isSent = false ∧
    (fetch stMissingA "j").1 = .sendError "/tmp/yt_a/v.mp4" := by
  decide

/-- C3, amended: for every job with `status = finished` whose
`final_path` is set, nonempty and present on disk, the first fetch
streams the file, and exactly once removes the working directory
recursively and the job record from the registry; a second fetch with
the same identifier yields not-found and leaves the state untouched, so
cleanup never runs twice. -/
theorem fetch_finished_cleanup_once (st : ServerState) (jobId : String) (job : Job)
    (fp d : String)
    (h1 : regGet st.reg jobId = some job) (h2 : job.status = .finished)
    (h3 : job.final_path = some fp) (h4 : fp ≠ "") (h5 : fsExists st.fs fp = true)
    (h6 : job.tmpdir = some d) :
    (fetch st jobId).1 = .sent fp (basename fp) ∧
    regGet ((fetch st jobId).2).reg jobId = none ∧
    (∀ pr ∈ ((fetch st jobId).2).fs, ((d ++ "/").isPrefixOf pr.1) = false) ∧
    fetch ((fetch st jobId).2) jobId = (.notFound, (fetch st jobId).2) := by
  have hfp : pyOrStr job.final_path "" = fp := by simp [pyOrStr, h3, h4]
  have hfetch : fetch st jobId =
      (.sent fp (basename fp),
        { reg := regPop st.reg jobId, fs := rmtree st.fs job.tmpdir }) := by
    simp [fetch, h1, hfp, h2, h4, h5]
  refine ⟨by rw [hfetch], ?_, ?_, ?_⟩
  · rw [hfetch]
    exact regGet_regPop _ _
  · rw [hfetch, h6]
    intro pr hpr
    have hmem := (List.mem_filter.mp hpr).2
    simpa using hmem
  · rw [hfetch]
    simp [fetch, regGet_regPop]

/-- C3, witness: a ready job is streamed once, its directory and record
are gone afterwards, and the second fetch is not-found. -/
theorem fetch_finished_cleanup_once_witness :
    (fetch stReadyA "j").1 = .sent "/tmp/yt_a/v.mp4" (basename "/tmp/yt_a/v.mp4") ∧
    regGet ((fetch stReadyA "j").2).reg "j" = none ∧
    (∀ pr ∈ ((fetch stReadyA "j").2).fs, (("/tmp/yt_a" ++ "/").isPrefixOf pr.1) = false) ∧
    fetch ((fetch stReadyA "j").2) "j" = (.notFound, (fetch stReadyA "j").2) :=
  fetch_finished_cleanup_once stReadyA "j" jobDoneA "/tmp/yt_a/v.mp4" "/tmp/yt_a"
    (by decide) (by decide) (by decide) (by decide) (by decide) (by decide)

/-- C4, counterexample: for a job that exists with `status = finished`
and `final_path` set but absent from disk, the route does not answer
conflict — it attempts `send_file` on the missing path (an internal
error), because the readiness check never consults the disk. -/
theorem fetch_missing_file_not_conflict :
    (fetch stMissingC "g").1 ≠ .conflict ∧
    (fetch stMissingC "g").1 = .sendError "/tmp/yt_c/w.mp4" := by
  decide

/-- C4, amended: a fetch for an unknown identifier is not-found; a fetch
for an existing job whose status is not `finished` or whose
`final_path` is unset (empty/None) is conflict with no bytes streamed;
the file is streamed only when the job exists with `status = finished`,
`final_path` set and the file present on disk.  Existence on disk is
not part of the conflict check: with the record ready but the file
missing, `send_file` fails instead of answering conflict. -/
theorem fetch_preconditions (st : ServerState) (jobId : String) :
    (regGet st.reg jobId = none → fetch st jobId = (.notFound, st)) ∧
    (∀ job, regGet st.reg jobId = some job →
      (job.status ≠ Status.finished ∨ pyOrStr job.final_path "" = "") →
      fetch st jobId = (.conflict, st)) ∧
    (∀ p n, (fetch st jobId).1 = .sent p n →
      ∃ job, regGet st.reg jobId = some job ∧ job.status = .finished ∧
        job.final_path = some p ∧ fsExists st.fs p = true ∧ n = basename p) := by
  refine ⟨?_, ?_, ?_⟩
  · intro h
    simp [fetch, h]
  · intro job hj hcond
    simp only [fetch, hj]
    rw [if_pos hcond]
  · intro p n h
    cases hg : regGet st.reg jobId with
    | none => simp [fetch, hg] at h
    | some job =>
      by_cases hcond : (job.status ≠ Status.finished ∨ pyOrStr job.final_path "" = "")
      · simp only [fetch, hg] at h
        rw [if_pos hcond] at h
        simp at h
      · push_neg at hcond
        obtain ⟨hfin, hne⟩ := hcond
        simp only [fetch, hg] at h
        rw [if_neg (by simp [hfin, hne])] at h
        cases hex : fsExists st.fs (pyOrStr job.final_path "") with
        | false =>
          rw [hex] at h
          simp at h
        | true =>
          rw [hex] at h
          simp only [if_true, FetchResult.sent.injEq] at h
          have hp := h.1
          have hn := h.2
          have hfp : job.final_path = some p := by
            cases hfp0 : job.final_path with
            | none =>
              rw [hfp0] at hne
              simp [pyOrStr] at hne
            | some fp0 =>
              rw [hfp0] at hne
              have hp0 : fp0 = p := by
                rw [hfp0] at hp
                by_cases hfe : fp0 = ""
                · subst hfe
                  simp [pyOrStr] at hne
                · rw [show pyOrStr (some fp0) "" = fp0 from by simp [pyOrStr, hfe]] at hp
                  exact hp
              rw [hp0]
          refine ⟨job, rfl, hfin, hfp, ?_, ?_⟩
          · rw [← hp]
            exact hex
          · rw [hp] at hn
            exact hn.symm

/-- C4, witness: the three outcomes at concrete states — unknown job,
job not yet finished, and a ready job whose stream implies all
preconditions held. -/
theorem fetch_preconditions_witness :
    fetch stEmpty "zzz" = (.notFound, stEmpty) ∧
    fetch stNotReadyB "k" = (.conflict, stNotReadyB) ∧
    (∃ job, regGet stReadyD.reg "m" = some job ∧ job.status = .finished ∧
      job.final_path = some "/tmp/yt_d/x.mp4" ∧
      fsExists stReadyD.fs "/tmp/yt_d/x.mp4" = true ∧
      basename "/tmp/yt_d/x.mp4" = basename "/tmp/yt_d/x.mp4") :=
  ⟨(fetch_preconditions stEmpty "zzz").1 (by decide),
   (fetch_preconditions stNotReadyB "k").2.1 jobRunningB (by decide) (by decide),
   (fetch_preconditions stReadyD "m").2.2 "/tmp/yt_d/x.mp4" (basename "/tmp/yt_d/x.mp4")
     (by decide)⟩

/-- The hook either writes `downloading`, writes the merge phase
(`postprocessing`/`finalizing`), or leaves the status alone. -/
theorem hook_status_cases (ff : Bool) (mode : String) (j : Job) (e : Event) :
    (hook ff mode j e).status = .downloading ∨
    (hook ff mode j e).status = .postprocessing ∨
    (hook ff mode j e).status = .finalizing ∨
    (hook ff mode j e).status = j.status := by
  rcases e with ⟨st, tb, tbe, db, sp, et, uf, fn⟩
  cases st with
  | downloading => exact Or.inl rfl
  | finished =>
    cases hb : ff && (mode == "best" || mode == "audio") with
    | false =>
      refine Or.inr (Or.inr (Or.inl ?_))
      simp [hook, hb]
    | true =>
      refine Or.inr (Or.inl ?_)
      simp [hook, hb]
  | other => exact Or.inr (Or.inr (Or.inr rfl))

/-- Processing one event keeps the status among the mid-run phases. -/
theorem mid_hook (ff : Bool) (mode : String) (j : Job) (e : Event) (h : Mid j.status) :
    Mid ((hook ff mode j e).status) := by
  rcases hook_status_cases ff mode j e with hc | hc | hc | hc
  · exact Or.inr (Or.inl hc)
  · exact Or.inr (Or.inr (Or.inl hc))
  · exact Or.inr (Or.inr (Or.inr hc))
  · rw [hc]
    exact h

/-- Each hook write is an allowed step from a mid-run status. -/
theorem stepOk_hook (ff : Bool) (mode : String) (j : Job) (e : Event) (h : Mid j.status) :
    stepOk j.status ((hook ff mode j e).status) = true := by
  rcases hook_status_cases ff mode j e with hc | hc | hc | hc <;> rw [hc] <;>
    rcases h with h | h | h | h <;> rw [h] <;> decide

/-- Stepping from any mid-run status to a terminal status is allowed. -/
theorem stepOk_mid_terminal (s t : Status) (hs : Mid s)
    (ht : t = Status.finished ∨ t = Status.error) : stepOk s t = true := by
  rcases hs with h | h | h | h <;> rcases ht with h2 | h2 <;> rw [h, h2] <;> decide

/-- Unfolding equation for `chainB` on two or more elements. -/
theorem chainB_cons₂ (R : Status → Status → Bool) (a b : Status) (l : List Status) :
    chainB R (a :: b :: l) = (R a b && chainB R (b :: l)) := rfl

/-- From any mid-run status, the statuses the hook writes followed by a
terminal status form a `stepOk` chain. -/
theorem chainB_hookStatuses (ff : Bool) (mode : String) :
    ∀ (events : List Event) (j : Job) (t : Status), Mid j.status →
      (t = Status.finished ∨ t = Status.error) →
      chainB stepOk (j.status :: hookStatuses ff mode j events ++ [t]) = true := by
  intro events
  induction events with
  | nil =>
    intro j t hm ht
    show chainB stepOk [j.status, t] = true
    rw [chainB_cons₂, stepOk_mid_terminal j.status t hm ht]
    rfl
  | cons e es ih =>
    intro j t hm ht
    have h1 := stepOk_hook ff mode j e hm
    have h2 := ih (hook ff mode j e) t (mid_hook ff mode j e hm) ht
    show (stepOk j.status ((hook ff mode j e).status) &&
      chainB stepOk ((hook ff mode j e).status ::
        hookStatuses ff mode (hook ff mode j e) es ++ [t])) = true
    rw [h1, h2]
    rfl

/-- C1, counterexample: with ffmpeg available and mode `best`, the event
sequence downloading, finished, downloading (a multi-stream download: the
video file finishes, then the audio stream starts) yields the status
trace queued, starting, downloading, postprocessing, downloading,
finished — which is not a forward-only path (`postprocessing` is
followed by `downloading`), because the hook sets `downloading`
unconditionally on every progress event. -/
theorem statusTrace_claim_counterexample :
    chainB rankLe (statusTrace true "best" [evDl, evFin, evDl] (.success "x")) = false ∧
    statusTrace true "best" [evDl, evFin, evDl] (.success "x") =
      [.queued, .starting, .downloading, .postprocessing, .downloading, .finished] := by
  constructor
  · decide
  · decide

/-- C1, amended: over a worker run, the recorded statuses form the path
queued, starting, then phases among downloading / postprocessing /
finalizing, ending in `finished` or `error`; every step is forward with
the single exception that `postprocessing` or `finalizing` may step
back to `downloading` when a further stream's progress events arrive;
`finished` and `error` are written only as the final, never-overwritten
status (in particular `error` is absorbing: the worker writes it last
and no hook event is processed afterwards). -/
theorem statusTrace_forward_except_multistream (ff : Bool) (mode : String)
    (events : List Event) (outcome : Outcome) :
    chainB stepOk (statusTrace ff mode events outcome) = true := by
  have hmid : Mid startedJob.status := Or.inl rfl
  cases outcome with
  | success prepared =>
    have h : chainB stepOk
        (Status.starting :: hookStatuses ff mode startedJob events ++ [Status.finished]) = true :=
      chainB_hookStatuses ff mode events startedJob Status.finished hmid (Or.inl rfl)
    show (stepOk Status.queued Status.starting &&
      chainB stepOk
        (Status.starting :: hookStatuses ff mode startedJob events ++ [Status.finished])) = true
    rw [h]
    rfl
  | downloadError e =>
    have h : chainB stepOk
        (Status.starting :: hookStatuses ff mode startedJob events ++ [Status.error]) = true :=
      chainB_hookStatuses ff mode events startedJob Status.error hmid (Or.inr rfl)
    show (stepOk Status.queued Status.starting &&
      chainB stepOk
        (Status.starting :: hookStatuses ff mode startedJob events ++ [Status.error])) = true
    rw [h]
    rfl
  | unexpectedError e =>
    have h : chainB stepOk
        (Status.starting :: hookStatuses ff mode startedJob events ++ [Status.error]) = true :=
      chainB_hookStatuses ff mode events startedJob Status.error hmid (Or.inr rfl)
    show (stepOk Status.queued Status.starting &&
      chainB stepOk
        (Status.starting :: hookStatuses ff mode startedJob events ++ [Status.error])) = true
    rw [h]
    rfl

end App
